import Mathlib

/-!
Verification of the simplo-bi ingestion/normalization/aggregation core.

The TypeScript source is shallowly embedded:

* JavaScript strings are Lean `String`s; the handful of string primitives the
  code uses (`toLowerCase`, `toUpperCase`, `trim`, `split`, `includes`,
  `replace`, `substring`) are re-implemented structurally on `String.data`
  (`List Char`) so that every definition evaluates inside the kernel.
  Case mapping and the whitespace class are modelled for the ASCII range,
  which covers every alias, keyword and sentinel the code manipulates.
* JavaScript numbers are modelled exactly: a parsed numeric literal is kept
  as a decimal mantissa/exponent pair (`JsVal.num m e`, denoting `m * 10^e`),
  with `NaN`, `Infinity` and `-Infinity` as separate constructors.  Binary
  floating-point rounding is not modelled; no claim under verification
  depends on it.
* `new Date(year, month, day)` is modelled by the ECMAScript `MakeDay`
  algorithm: the 0..99 → 1900+y year rewrite, month overflow into years and
  day overflow into months (proleptic Gregorian arithmetic, Hinnant's civil
  calendar algorithms), plus the `TimeClip` range check that turns
  out-of-range inputs into an Invalid Date.
* `new Date()` (the "now" fallback of the date parser) is made explicit: the
  functions that call it take the current timestamp as an argument `now`.
-/

namespace SimploBI

/-! ### ASCII string primitives (models of the JS string methods used) -/

/-- Model of `String.prototype.toLowerCase` for one character (ASCII range). -/
def jsLowerChar (c : Char) : Char :=
  if 'A' ≤ c ∧ c ≤ 'Z' then Char.ofNat (c.toNat + 32) else c

/-- Model of `String.prototype.toUpperCase` for one character (ASCII range). -/
def jsUpperChar (c : Char) : Char :=
  if 'a' ≤ c ∧ c ≤ 'z' then Char.ofNat (c.toNat - 32) else c

/-- Model of `s.toLowerCase()`. -/
def jsToLower (s : String) : String := ⟨s.data.map jsLowerChar⟩

/-- Model of `s.toUpperCase()`. -/
def jsToUpper (s : String) : String := ⟨s.data.map jsUpperChar⟩

/-- The whitespace class used by `trim` and the regex `\s`: the ECMAScript
WhiteSpace and LineTerminator characters (space, tab, LF, VT, FF, CR,
NBSP, the Unicode Zs spaces, LS, PS and ZWNBSP). -/
def jsIsWs (c : Char) : Bool :=
  c == ' ' || c == '\t' || c == '\n' || c == '\r' ||
  c == Char.ofNat 11 || c == Char.ofNat 12 ||
  c == Char.ofNat 160 || c == Char.ofNat 0x1680 ||
  (0x2000 ≤ c.toNat && c.toNat ≤ 0x200A) ||
  c == Char.ofNat 0x2028 || c == Char.ofNat 0x2029 ||
  c == Char.ofNat 0x202F || c == Char.ofNat 0x205F ||
  c == Char.ofNat 0x3000 || c == Char.ofNat 0xFEFF

/-- Model of `s.trim()`: strip leading and trailing whitespace. -/
def jsTrim (s : String) : String :=
  ⟨(((s.data.dropWhile jsIsWs).reverse).dropWhile jsIsWs).reverse⟩

/-- Helper for `jsSplit`: splits a character list at a separator character. -/
def splitChars (sep : Char) : List Char → List Char → List (List Char)
  | [], acc => [acc.reverse]
  | c :: t, acc =>
    if c == sep then acc.reverse :: splitChars sep t []
    else splitChars sep t (c :: acc)

/-- Model of `s.split(sep)` for a one-character separator. -/
def jsSplit (s : String) (sep : Char) : List String :=
  (splitChars sep s.data []).map String.mk

/-- Whether the character list `pat` occurs as a contiguous run inside `s`.
Models `s.includes(pat)` on the underlying character lists. -/
def charsIncl (pat : List Char) : List Char → Bool
  | [] => pat.isEmpty
  | c :: t => pat.isPrefixOf (c :: t) || charsIncl pat t

/-- Model of `s.includes(pat)` (substring containment). -/
def jsIncludes (s pat : String) : Bool := charsIncl pat.data s.data

/-- Model of `s.includes(c)` for a single character. -/
def jsContainsChar (s : String) (c : Char) : Bool := s.data.contains c

/-- Helper for `jsReplaceFirst` on character lists. -/
def replaceFirstChars (pat rep : List Char) : List Char → List Char
  | [] => []
  | c :: t =>
    if pat.isPrefixOf (c :: t) then rep ++ (c :: t).drop pat.length
    else c :: replaceFirstChars pat rep t

/-- Model of `s.replace(pat, rep)` with a non-empty string pattern: replaces
the first occurrence only (the JS behaviour for string patterns). -/
def jsReplaceFirst (s pat rep : String) : String :=
  ⟨replaceFirstChars pat.data rep.data s.data⟩

/-- Model of `s.replace(/x/g, '')` for one character, i.e. remove every
occurrence of the character. -/
def removeAllChar (s : String) (x : Char) : String :=
  ⟨s.data.filter (fun c => !(c == x))⟩

/-- Model of `s.replace(/\s/g, '')`: remove all whitespace. -/
def removeAllWs (s : String) : String :=
  ⟨s.data.filter (fun c => !(jsIsWs c))⟩

/-- Helper: replace the first occurrence of one character by another. -/
def replaceCharFirst (x y : Char) : List Char → List Char
  | [] => []
  | c :: t => if c == x then y :: t else c :: replaceCharFirst x y t

/-- Model of `s.replace(',', '.')`: first occurrence only. -/
def jsReplaceCharFirst (s : String) (x y : Char) : String :=
  ⟨replaceCharFirst x y s.data⟩

/-- Model of `s.substring(0, n)`. -/
def jsSubstringTo (s : String) (n : Nat) : String := ⟨s.data.take n⟩

/-- Number of occurrences of a character in a string. -/
def countChar (s : String) (x : Char) : Nat := s.data.count x

/-! ### JavaScript numbers -/

/-- A JavaScript number as produced by `parseFloat` / `Number`:
`num m e` denotes the exact decimal `m * 10 ^ e`.  Decimal literals are
represented exactly; IEEE-754 rounding is not modelled. -/
inductive JsVal where
  | nan : JsVal
  | inf : JsVal
  | neginf : JsVal
  | num : Int → Int → JsVal
  deriving DecidableEq, Repr

/-- The rational denoted by a finite `JsVal` (`none` for `NaN`/infinities). -/
def JsVal.toRat : JsVal → Option ℚ
  | .num m e => some ((m : ℚ) * (10 : ℚ) ^ e)
  | _ => none

/-- Is the character an ASCII digit. -/
def isDig (c : Char) : Bool := '0' ≤ c && c ≤ '9'

/-- Value of a digit list read in base 10 (most significant first). -/
def digitsVal (ds : List Char) : Nat :=
  ds.foldl (fun n c => n * 10 + (c.toNat - '0'.toNat)) 0

/-- Decompose an optional leading `+`/`-` sign.  Returns the sign as `1`
or `-1` together with the rest of the characters. -/
def takeSign : List Char → Int × List Char
  | '+' :: t => (1, t)
  | '-' :: t => (-1, t)
  | l => (1, l)

/-- Parse the optional exponent part `[eE][+-]?digits` at `l`.  Returns the
exponent value, or `0` when the exponent is absent or malformed (in which
case `parseFloat` backtracks and keeps the number parsed so far). -/
def takeExponent (l : List Char) : Int :=
  match l with
  | 'e' :: t | 'E' :: t =>
    let (sg, t2) := takeSign t
    let ds := t2.takeWhile isDig
    if ds.isEmpty then 0 else sg * digitsVal ds
  | _ => 0

/-- Model of `parseFloat(s)`: skip leading whitespace, optional sign, then
the longest prefix of the form `Infinity`, `digits`, `digits.digits`,
`.digits`, optionally followed by a well-formed exponent; `NaN` when no
digits can be read.  Hexadecimal forms (which `parseFloat` does not accept)
are correctly rejected; the full Unicode whitespace class is narrowed to
ASCII. -/
def jsParseFloat (s : String) : JsVal :=
  let l := s.data.dropWhile jsIsWs
  let (sg, l1) := takeSign l
  if ("Infinity".data).isPrefixOf l1 then
    (if sg = 1 then .inf else .neginf)
  else
    let ds := l1.takeWhile isDig
    let l2 := l1.drop ds.length
    let (fs, l3) :=
      match l2 with
      | '.' :: t => (t.takeWhile isDig, (t.takeWhile isDig).length + 1)
      | _ => ([], 0)
    if ds.isEmpty && fs.isEmpty then .nan
    else
      let ex := takeExponent (l2.drop l3)
      .num (sg * digitsVal (ds ++ fs)) (ex - fs.length)

/-- Is the character a hexadecimal digit. -/
def isHexDig (c : Char) : Bool :=
  ('0' ≤ c && c ≤ '9') || ('a' ≤ c && c ≤ 'f') || ('A' ≤ c && c ≤ 'F')

/-- Is the character an octal digit. -/
def isOctDig (c : Char) : Bool := '0' ≤ c && c ≤ '7'

/-- Is the character a binary digit. -/
def isBinDig (c : Char) : Bool := c == '0' || c == '1'

/-- Value of one hexadecimal digit. -/
def hexDigVal (c : Char) : Nat :=
  if '0' ≤ c && c ≤ '9' then c.toNat - '0'.toNat
  else if 'a' ≤ c && c ≤ 'f' then c.toNat - 'a'.toNat + 10
  else c.toNat - 'A'.toNat + 10

/-- Value of a digit list in the given radix (most significant first). -/
def radixVal (radix : Nat) (ds : List Char) : Nat :=
  ds.foldl (fun n c => n * radix + hexDigVal c) 0

/-- The `StrDecimalLiteral` part of `Number(s)`: the whole character list
must be `[+-]?(digits 〔.digits〕 | .digits)` with an optional
`[eE][+-]?digits` exponent; the value is truncated toward zero
(`ToIntegerOrInfinity`, as the `Date` constructor applies it). -/
def jsNumberDec (l : List Char) : Option Int :=
  let (sg, l1) := takeSign l
  let ds := l1.takeWhile isDig
  let l2 := l1.drop ds.length
  let (fs, l3) :=
    match l2 with
    | '.' :: t => (t.takeWhile isDig, (t.takeWhile isDig).length + 1)
    | _ => ([], 0)
  if ds.isEmpty && fs.isEmpty then none
  else
    let rest := l2.drop l3
    let ex : Option Int :=
      match rest with
      | [] => some 0
      | 'e' :: t | 'E' :: t =>
        let (sg2, t2) := takeSign t
        let eds := t2.takeWhile isDig
        if eds.isEmpty || !(t2.drop eds.length).isEmpty then none
        else some (sg2 * digitsVal eds)
      | _ => none
    match ex with
    | none => none
    | some e =>
      let e2 := e - fs.length
      let mant : Int := sg * digitsVal (ds ++ fs)
      if 0 ≤ e2 then some (mant * (10 : Int) ^ e2.toNat)
      else some (Int.tdiv mant ((10 : Int) ^ (-e2).toNat))

/-- Model of `Number(s)` as the `Date` constructor consumes it (truncated
toward zero): `none` stands for any value (`NaN`, `±Infinity`) that makes
the constructed `Date` invalid.  The whole trimmed string must be a
`StrNumericLiteral`: the empty string converts to `0`; an unsigned
`0x`/`0X`, `0o`/`0O` or `0b`/`0B` prefix introduces a hex/octal/binary
integer literal (a sign is not permitted before these forms); everything
else is read as a signed decimal literal (`jsNumberDec`).  `"Infinity"`,
which `Number` accepts but which still yields an invalid `Date` argument,
is conflated into `none`. -/
def jsNumberInt (s : String) : Option Int :=
  let l := (jsTrim s).data
  if l.isEmpty then some 0
  else
    match l with
    | '0' :: c :: rest =>
      if c == 'x' || c == 'X' then
        if !rest.isEmpty && rest.all isHexDig then some (radixVal 16 rest) else none
      else if c == 'o' || c == 'O' then
        if !rest.isEmpty && rest.all isOctDig then some (radixVal 8 rest) else none
      else if c == 'b' || c == 'B' then
        if !rest.isEmpty && rest.all isBinDig then some (radixVal 2 rest) else none
      else jsNumberDec l
    | _ => jsNumberDec l

/-! ### JavaScript Date construction (`new Date(year, month, day)`) -/

/-- A proleptic Gregorian calendar date. -/
structure CivilDate where
  year : Int
  month : Int
  day : Int
  deriving DecidableEq, Repr

/-- Day number (days since 1970-01-01) of a civil date, for `m` in `1..12`
and any day of that month; Hinnant's `days_from_civil`. -/
def daysFromCivil (y m d : Int) : Int :=
  let y1 := if m ≤ 2 then y - 1 else y
  let era := y1.fdiv 400
  let yoe := y1 - era * 400
  let mp := (m + 9).emod 12
  let doy := (153 * mp + 2).fdiv 5 + d - 1
  let doe := yoe * 365 + yoe.fdiv 4 - yoe.fdiv 100 + doy
  era * 146097 + doe - 719468

/-- Civil date of a day number (days since 1970-01-01); Hinnant's
`civil_from_days`. -/
def civilFromDays (z0 : Int) : CivilDate :=
  let z := z0 + 719468
  let era := z.fdiv 146097
  let doe := z - era * 146097
  let yoe := (doe - doe.fdiv 1460 + doe.fdiv 36524 - doe.fdiv 146096).fdiv 365
  let y := yoe + era * 400
  let doy := doe - (365 * yoe + yoe.fdiv 4 - yoe.fdiv 100)
  let mp := (5 * doy + 2).fdiv 153
  let d := doy - (153 * mp + 2).fdiv 5 + 1
  let m := mp + (if mp < 10 then 3 else -9)
  ⟨if m ≤ 2 then y + 1 else y, m, d⟩

/-- Model of `new Date(y, m, d)` (ECMAScript `MakeDay` + `TimeClip`):
a year argument in `0..99` is rewritten to `1900 + y`; an out-of-range
month overflows into the year; an out-of-range day overflows into
adjacent months; a resulting time value farther than 100,000,000 days
from the epoch is an Invalid Date (`none`). -/
def jsMakeDate (y m d : Int) : Option CivilDate :=
  let yr := if 0 ≤ y ∧ y ≤ 99 then 1900 + y else y
  let ym := yr + m.fdiv 12
  let mn := m.emod 12
  let days := daysFromCivil ym (mn + 1) 1 + (d - 1)
  if days ≤ 100000000 ∧ -100000000 ≤ days then some (civilFromDays days)
  else none

/-- A raw spreadsheet row as produced by `Papa.parse(..., { header: true })`:
an association list from column header to cell string, in object-key
(insertion) order. -/
def RawRow := List (String × String)

/-- Embedding of the `find` closure inside `normalizeRow`
(src/backend/src/index.ts, lines 61-67): for each alias `k` in order, look
for the first header equal to `k` up to `toLowerCase().trim()`; if such a
header exists and its cell value is truthy (a non-empty string), return the
cell trimmed, otherwise continue with the next alias; `null` (`none`) when
no alias produces a value. -/
def findField (row : RawRow) (keys : List String) : Option String :=
  match keys with
  | [] => none
  | k :: ks =>
    match row.find? (fun p => jsTrim (jsToLower p.1) == jsTrim (jsToLower k)) with
    | some p => if p.2 == "" then findField row ks else some (jsTrim p.2)
    | none => findField row ks

/-- The cleaning chain of `parseCurrency` (src/backend/src/index.ts, line 71):
`v.replace('R$', '').replace(/\s/g, '').replace(/\./g, '').replace(',', '.')`.
`replace` with the string patterns `'R$'` and `','` replaces only the first
occurrence. -/
def cleanCurrency (s : String) : String :=
  jsReplaceCharFirst (removeAllChar (removeAllWs (jsReplaceFirst s "R$" "")) '.') ',' '.'

/-- Model of `isNaN(num) ? 0 : num`. -/
def nanToZero (x : JsVal) : JsVal :=
  match x with
  | .nan => .num 0 0
  | x => x

/-- Embedding of `parseCurrency` (src/backend/src/index.ts, lines 69-74):
falsy input (`null` or empty string) is `0`; otherwise clean, `parseFloat`,
and map `NaN` to `0`. -/
def parseCurrency (v : Option String) : JsVal :=
  match v with
  | none => .num 0 0
  | some s =>
    if s == "" then .num 0 0
    else nanToZero (jsParseFloat (cleanCurrency s))

/-- The result of `parseDate`: either the ISO string of `new Date()` at the
moment of the call (the fallback, with the call time `t` made explicit), or
the ISO string of a valid constructed `Date`, identified by the civil date
the constructor arguments normalize to (`new Date(y, m, d)` is local
midnight; the up-to-one-day shift that `toISOString`'s UTC rendering can
introduce for east-of-Greenwich zones is not modelled — no claim depends
on the rendering).  The type has no constructor for an invalid date:
`parseDate` can never produce one because `dateObj.toISOString()` is only
reached behind the `!isNaN(dateObj.getTime())` guard. -/
inductive ParsedDate where
  | nowIso : Nat → ParsedDate
  | dateIso : CivilDate → ParsedDate
  deriving DecidableEq, Repr

/-- The branch structure of `parseDate` (src/backend/src/index.ts, lines
76-84), separated from the fallback value: `some c` when the source reaches
`return dateObj.toISOString()` with the valid date `c`, and `none` when any
of its `return new Date().toISOString()` fallback lines runs.  In source
order: `null`/empty string, a string containing `#`, and the literal
`"00/00/0000"` are sentinels; otherwise the string is split on `/`, and
only a 3-part split whose parts all convert to numbers (`Number(...)`)
yields `new Date(parts[2], parts[1] - 1, parts[0])`, kept only when that
`Date` is valid. -/
def parseDateCore (d : Option String) : Option CivilDate :=
  match d with
  | none => none
  | some s =>
    if s == "" || jsContainsChar s '#' || s == "00/00/0000" then none
    else
      let parts := jsSplit s '/'
      if parts.length = 3 then
        match jsNumberInt (parts.getD 2 ""),
              jsNumberInt (parts.getD 1 ""),
              jsNumberInt (parts.getD 0 "") with
        | some y, some m, some dd => jsMakeDate y (m - 1) dd
        | _, _, _ => none
      else none

/-- Embedding of `parseDate` (src/backend/src/index.ts, lines 76-84).
`now` is the timestamp `new Date()` would observe at the moment of the
call; every fallback line of the source returns its ISO string. -/
def parseDate (now : Nat) (d : Option String) : ParsedDate :=
  match parseDateCore d with
  | some c => .dateIso c
  | none => .nowIso now

/-- Embedding of `normalizeStatus` (src/backend/src/index.ts, lines 86-92).
This revision knows the won keywords ganha/conquistado/fechado and the lost
keywords perdida/perdido/lost. -/
def normalizeStatus (s : Option String) : String :=
  match s with
  | none => "Em aberto"
  | some s0 =>
    if s0 == "" then "Em aberto"
    else
      let lower := jsToLower s0
      if jsIncludes lower "ganha" || jsIncludes lower "conquistado" ||
         jsIncludes lower "fechado" then "Ganha"
      else if jsIncludes lower "perdida" || jsIncludes lower "perdido" ||
         jsIncludes lower "lost" then "Perdida"
      else "Em aberto"

/-- Embedding of `normalizeStatus` from the later pipeline revision
(src/unnamed/part_001, lines 664-670), which additionally knows the won
keyword "vendido" and the lost keyword "desqualificado". -/
def normalizeStatusV2 (s : Option String) : String :=
  match s with
  | none => "Em aberto"
  | some s0 =>
    if s0 == "" then "Em aberto"
    else
      let lower := jsToLower s0
      if jsIncludes lower "ganha" || jsIncludes lower "conquistado" ||
         jsIncludes lower "fechado" || jsIncludes lower "vendido" then "Ganha"
      else if jsIncludes lower "perdida" || jsIncludes lower "perdido" ||
         jsIncludes lower "lost" || jsIncludes lower "desqualificado" then "Perdida"
      else "Em aberto"

/-! ### Row Normalizer (src/backend/src/index.ts, lines 59-107) -/

/-- The alias table: one ranked alias list per canonical field
(`DEFAULT_MAPPING`'s shape). -/
structure Mapping where
  responsavel : List String
  funil : List String
  status : List String
  valor : List String
  data_criacao : List String
  data_conclusao : List String
  origem : List String
  cliente : List String
  estado : List String
  cidade : List String
  produto : List String

/-- `DEFAULT_MAPPING` from src/backend/src/index.ts, lines 44-56. -/
def DEFAULT_MAPPING : Mapping where
  responsavel := ["Responsável", "Vendedor", "Owner", "Agente", "Rep"]
  funil := ["Funil", "Pipeline", "Etapa", "Fase"]
  status := ["Situação", "Status", "Estado", "Situation"]
  valor := ["Valor", "Vlr", "Receita", "Amount", "Preço", "Valor Total"]
  data_criacao := ["Dt.Cad", "Data Criação", "Created At", "Data Entrada", "Data de Cadastro"]
  data_conclusao := ["Dt.Conq./Perda", "Data Fechamento", "Closed At", "Data Venda", "Data Conclusão"]
  origem := ["Origem", "Source", "Canal", "Origem do Lead", "Fonte"]
  cliente := ["Cliente", "Nome", "Empresa", "Lead", "Nome do Cliente"]
  estado := ["Estado", "UF", "U.F.", "State", "Região"]
  cidade := ["Cidade", "City", "Municipio", "Local"]
  produto := ["Produto", "Produtos", "Serviço", "Item", "Mercadoria", "Product"]

/-- The canonical opportunity record produced by `normalizeRow`
(sans `user_id`/`unique_hash`, which the upload route adds). -/
structure Opportunity where
  responsavel : String
  funil : String
  status : String
  valor : JsVal
  data_criacao : ParsedDate
  data_conclusao : Option ParsedDate
  origem_lead : String
  nome_cliente : String
  estado : String
  cidade : String
  produto : String
  deriving DecidableEq, Repr

/-- Model of `find(keys) || default`: a `null` or empty-string result is
falsy and replaced by the default. -/
def orDefault (v : Option String) (dflt : String) : String :=
  match v with
  | none => dflt
  | some s => if s == "" then dflt else s

/-- The `data_conclusao` expression of `normalizeRow` (line 100):
`find(mapping.data_conclusao) ? parseDate(find(mapping.data_conclusao)) : null`,
where a `null` or empty find result is falsy. -/
def conclusaoField (now : Nat) (v : Option String) : Option ParsedDate :=
  match v with
  | none => none
  | some s => if s == "" then none else some (parseDate now (some s))

/-- Embedding of `normalizeRow` (src/backend/src/index.ts, lines 59-107).
`now` is the timestamp observed by any `new Date()` executed during the
call (the two date fields are normalized within the same call).
`estado` is `find(estado)?.substring(0, 2).toUpperCase() || 'NA'`;
`data_conclusao` is `find(...) ? parseDate(find(...)) : null`, where an
empty-string find result is falsy. -/
def normalizeRow (row : RawRow) (mapping : Mapping) (now : Nat) : Opportunity where
  responsavel := orDefault (findField row mapping.responsavel) "N/A"
  funil := orDefault (findField row mapping.funil) "Geral"
  status := normalizeStatus (findField row mapping.status)
  valor := parseCurrency (findField row mapping.valor)
  data_criacao := parseDate now (findField row mapping.data_criacao)
  data_conclusao := conclusaoField now (findField row mapping.data_conclusao)
  origem_lead := orDefault (findField row mapping.origem) "N/A"
  nome_cliente := orDefault (findField row mapping.cliente) "Anônimo"
  estado :=
    match findField row mapping.estado with
    | none => "NA"
    | some s =>
      let t := jsToUpper (jsSubstringTo s 2)
      if t == "" then "NA" else t
  cidade := orDefault (findField row mapping.cidade) "N/A"
  produto := orDefault (findField row mapping.produto) "Geral"

/-! ### Fingerprint dedup within one batch (src/backend/src/index.ts, lines 136-141)

The upload route builds `uniqueRowsMap = new Map()` and runs
`rawRows.forEach(row => uniqueRowsMap.set(row.unique_hash, row))`, then
sends `Array.from(uniqueRowsMap.values())` to the store.  A JS `Map` keeps
keys in first-insertion order and `set` on an existing key overwrites the
value in place; this is modelled by an association list with an in-place
update. -/

/-- Model of `map.set(k, r)` on a JS `Map` represented as an association
list in key-insertion order: overwrite in place if `k` is present,
otherwise append. -/
def upsertAssoc {α : Type} (m : List (String × α)) (k : String) (r : α) : List (String × α) :=
  match m with
  | [] => [(k, r)]
  | (k1, v) :: t => if k1 == k then (k1, r) :: t else (k1, v) :: upsertAssoc t k r

/-- Embedding of the in-batch dedup (src/backend/src/index.ts, lines
136-141; identical code in src/unnamed/part_000, lines 185-190):
`hashOf` extracts `row.unique_hash`. The result is the list sent to
`upsert`, in map-value order. -/
def dedupBatch {α : Type} (hashOf : α → String) (rows : List α) : List α :=
  (rows.foldl (fun m r => upsertAssoc m (hashOf r) r) []).map Prod.snd

/-! ### Analytical profile aggregation (src/backend/src/services/analyticsService.ts)

`generateAnalyticalProfile` fetches all rows of one owner and runs a single
`rows.forEach` loop over mutable accumulators.  The embedding carries the
summary counters and the `porVendedor` accumulator, which are the objects
of claim C8; the parallel per-dimension accumulators (`porOrigem`,
`porFunil`, `porMes`, `porEstado`, `porCidade`, `porProduto`) are updated
by structurally identical, independent code and never feed back into the
embedded state, so they are not carried. -/

/-- A stored `oportunidades` row as the analytics loop reads it (the fields
the embedded accumulators consume).  `valor` is the numeric column
(`Number(row.valor) || 0` in the loop), `none` standing for SQL null. -/
structure DbRow where
  responsavel : Option String
  status : Option String
  valor : Option ℚ
  deriving DecidableEq, Repr

/-- One `porVendedor[vendedor]` bucket: `{ ganhas, perdidas, valor, total }`. -/
structure VendBucket where
  ganhas : Nat
  perdidas : Nat
  valor : ℚ
  total : Nat
  deriving DecidableEq, Repr

/-- Model of `if (!obj[k]) obj[k] = init;` followed by in-place mutation
`f` of `obj[k]`, on an association list in key-insertion order. -/
def updateAssocWith {β : Type} (m : List (String × β)) (k : String) (init : β) (f : β → β) :
    List (String × β) :=
  match m with
  | [] => [(k, f init)]
  | (k1, v) :: t => if k1 == k then (k1, f v) :: t else (k1, v) :: updateAssocWith t k init f

/-- The mutable state of the analytics loop (embedded part). -/
structure ProfileState where
  totalValor : ℚ
  qtdGanhas : Nat
  qtdPerdidas : Nat
  qtdAberto : Nat
  porVendedor : List (String × VendBucket)
  deriving DecidableEq, Repr

/-- The `tipo === 'ganha'` test of the analytics loop
(src/backend/src/services/analyticsService.ts, line 74): the lower-cased
status contains ganha/conquistado/fechado. -/
def dbRowIsGanha (row : DbRow) : Bool :=
  let status := jsToLower (row.status.getD "")
  jsIncludes status "ganha" || jsIncludes status "conquistado" || jsIncludes status "fechado"

/-- The `tipo === 'perdida'` test (analyticsService.ts, line 75). -/
def dbRowIsPerdida (row : DbRow) : Bool :=
  let status := jsToLower (row.status.getD "")
  jsIncludes status "perdida" || jsIncludes status "perdido" || jsIncludes status "lost"

/-- The per-row mutation of one `porVendedor` bucket: `total++` always;
`ganhas++` and `valor += v` on a win; `perdidas++` on a loss. -/
def vendBump (isG isP : Bool) (valor : ℚ) (b : VendBucket) : VendBucket :=
  if isG then { b with total := b.total + 1, ganhas := b.ganhas + 1, valor := b.valor + valor }
  else if isP then { b with total := b.total + 1, perdidas := b.perdidas + 1 }
  else { b with total := b.total + 1 }

/-- One iteration of the analytics `rows.forEach` loop
(analyticsService.ts, lines 53-129), restricted to the embedded state:
classification into ganha/perdida/aberto, summary counters, and the
`porVendedor` bucket updates. -/
def profileStep (st : ProfileState) (row : DbRow) : ProfileState :=
  let valor := row.valor.getD 0
  let vendedor := orDefault row.responsavel "N/A"
  let isG := dbRowIsGanha row
  let isP := dbRowIsPerdida row
  { totalValor := if isG then st.totalValor + valor else st.totalValor
    qtdGanhas := if isG then st.qtdGanhas + 1 else st.qtdGanhas
    qtdPerdidas := if isG then st.qtdPerdidas else if isP then st.qtdPerdidas + 1 else st.qtdPerdidas
    qtdAberto := if isG || isP then st.qtdAberto else st.qtdAberto + 1
    porVendedor :=
      updateAssocWith st.porVendedor vendedor
        { ganhas := 0, perdidas := 0, valor := 0, total := 0 } (vendBump isG isP valor) }

/-- The `resumo` block of the returned profile (analyticsService.ts, lines
208-215).  `receita_total`/`ticket_medio` are kept as exact rationals; the
source's `toFixed(2)` string rendering is not modelled. -/
structure Resumo where
  total_analisado : Nat
  ganhas : Nat
  perdidas : Nat
  em_aberto : Nat
  receita_total : ℚ
  ticket_medio : ℚ
  deriving DecidableEq, Repr

/-- The embedded part of the analytical profile: the summary and the
per-seller buckets that `topVendedores` is mapped from. -/
structure Profile where
  resumo : Resumo
  porVendedor : List (String × VendBucket)
  deriving DecidableEq, Repr

/-- Embedding of `generateAnalyticalProfile` (analyticsService.ts):
`null` (`none`) on an empty dataset, otherwise the loop result assembled
into the report. -/
def generateAnalyticalProfile (rows : List DbRow) : Option Profile :=
  if rows.isEmpty then none
  else
    let st := rows.foldl profileStep ⟨0, 0, 0, 0, []⟩
    some
      { resumo :=
          { total_analisado := rows.length
            ganhas := st.qtdGanhas
            perdidas := st.qtdPerdidas
            em_aberto := st.qtdAberto
            receita_total := st.totalValor
            ticket_medio := if 0 < st.qtdGanhas then st.totalValor / st.qtdGanhas else 0 }
        porVendedor := st.porVendedor }

/-- Sum of the `total` counters over all per-seller buckets. -/
def sumTotals (m : List (String × VendBucket)) : Nat :=
  (m.map (fun p => p.2.total)).sum

/-- Sum of the `ganhas` counters over all per-seller buckets. -/
def sumGanhas (m : List (String × VendBucket)) : Nat :=
  (m.map (fun p => p.2.ganhas)).sum

/-! ### Query Tool Dispatcher (src/unnamed/part_001, `analisar_dados_complexos`)

The tool handler (part_001, lines 1041-1180) fetches all rows of the owner
and runs one `rows.forEach` pass: per-row sanitization, resolution of the
reference date (closure date for won/`status: 'Ganha'` queries, creation
date otherwise), a hard skip of rows whose reference date is an invalid
`Date`, the sparse filters, and accumulation under a composite group key,
followed by formatting, a three-level descending sort and `slice(0, 50)`. -/

/-- The value of `new Date(x)` for a stored date column: either a valid
date (identified by its civil date; the time of day plays no role in the
handler) or an Invalid Date. -/
inductive JsDateV where
  | invalid : JsDateV
  | valid : CivilDate → JsDateV
  deriving DecidableEq, Repr

/-- A stored `oportunidades` row as the dispatcher reads it.  String
columns are `Option String` (`none` for SQL null); `data_criacao` is the
`Date` its stored text parses to; `data_conclusao` is `none` when the
stored column is null/empty (falsy), in which case the code falls back to
the creation date.  Dynamic `row[campo]` group-by access is modelled for
the string columns (see `rowField`). -/
structure OppRow where
  responsavel : Option String
  origem_lead : Option String
  funil : Option String
  status : Option String
  motivo_perda : Option String
  produto : Option String
  estado : Option String
  cidade : Option String
  nome_cliente : Option String
  etapa : Option String
  valor : Option ℚ
  data_criacao : JsDateV
  data_conclusao : Option JsDateV
  deriving DecidableEq, Repr

/-- The `filtros` object of one `analisar_dados_complexos` call.  A `none`
(or falsy: `0` for `ano`, `""` for the strings) field applies no
constraint, exactly as the code's `if (filtros.x)` guards behave. -/
structure Filtros where
  ano : Option Int
  responsavel : Option String
  status : Option String
  origem : Option String
  deriving DecidableEq, Repr

/-- Model of `(v || dflt).trim() || dflt` (the handler's sanitization
pattern). -/
def sanitize (v : Option String) (dflt : String) : String :=
  let b := jsTrim (orDefault v dflt)
  if b == "" then dflt else b

/-- The handler's won test (part_001, line 1075): lower-cased status
contains ganha/fechado/conquistado/vendido. -/
def oppIsGanha (row : OppRow) : Bool :=
  let rStatus := jsToLower (row.status.getD "")
  jsIncludes rStatus "ganha" || jsIncludes rStatus "fechado" ||
    jsIncludes rStatus "conquistado" || jsIncludes rStatus "vendido"

/-- The handler's lost test (part_001, line 1076): lower-cased status
contains perdida/perdido/desqualificado (note: unlike the analytics loop,
no "lost" keyword here). -/
def oppIsPerdida (row : OppRow) : Bool :=
  let rStatus := jsToLower (row.status.getD "")
  jsIncludes rStatus "perdida" || jsIncludes rStatus "perdido" ||
    jsIncludes rStatus "desqualificado"

/-- The resolved reference date (part_001, lines 1078-1081): the closure
date (falling back to the creation date when `data_conclusao` is falsy)
when the query filters on `status: 'Ganha'` or the row itself is won,
otherwise the creation date. -/
def dataReferencia (filtros : Filtros) (row : OppRow) : JsDateV :=
  let dataConclusao :=
    match row.data_conclusao with
    | some d => d
    | none => row.data_criacao
  if filtros.status == some "Ganha" || oppIsGanha row then dataConclusao
  else row.data_criacao

/-- Year of a valid reference date (`getFullYear`); only consulted behind
the handler's invalid-date guard. -/
def refYear : JsDateV → Int
  | .invalid => 0
  | .valid c => c.year

/-- Month (1..12) of a valid reference date (`getMonth() + 1`). -/
def refMonth : JsDateV → Int
  | .invalid => 0
  | .valid c => c.month

/-- Decimal digits of a natural number (`fuel`-driven structural
recursion; `fuel` is always taken to exceed the number). -/
def natToChars (fuel n : Nat) : List Char :=
  match fuel with
  | 0 => []
  | fuel + 1 =>
    if n < 10 then [Char.ofNat ('0'.toNat + n)]
    else natToChars fuel (n / 10) ++ [Char.ofNat ('0'.toNat + n % 10)]

/-- Decimal string of a natural number (model of JS number-to-string for
the integers the handler prints). -/
def natToStr (n : Nat) : String := ⟨natToChars (n + 1) n⟩

/-- Decimal string of an integer. -/
def intToStr (i : Int) : String :=
  if i < 0 then "-" ++ natToStr i.natAbs else natToStr i.natAbs

/-- Model of `String(n).padStart(2, '0')` for a non-negative integer. -/
def pad2 (i : Int) : String :=
  let s := intToStr i
  if s.data.length < 2 then "0" ++ s else s

/-- Model of `array.join(sep)`. -/
def joinSep (sep : String) : List String → String
  | [] => ""
  | [x] => x
  | x :: t => x ++ sep ++ joinSep sep t

/-- Dynamic column access `row[campo]` for the group-by fallback branch
(part_001, line 1119), for the string columns of the table.  The numeric
and date columns are never meaningfully grouped on and are out of the
model. -/
def rowField (row : OppRow) (campo : String) : Option String :=
  if campo == "status" then row.status
  else if campo == "cidade" then row.cidade
  else if campo == "nome_cliente" then row.nome_cliente
  else if campo == "etapa" then row.etapa
  else none

/-- The per-dimension projection used to build the composite group key
(part_001, lines 1106-1120). -/
def projField (filtros : Filtros) (row : OppRow) (campo : String) : String :=
  let ref := dataReferencia filtros row
  if campo == "mes" then pad2 (refMonth ref) ++ "/" ++ intToStr (refYear ref)
  else if campo == "responsavel" then sanitize row.responsavel "N/A"
  else if campo == "origem" then sanitize row.origem_lead "N/A"
  else if campo == "funil" then jsTrim (orDefault row.funil "Geral")
  else if campo == "motivo_perda" then sanitize row.motivo_perda "Não informado"
  else if campo == "produto" then sanitize row.produto "Geral"
  else if campo == "estado" then sanitize row.estado "NA"
  else orDefault (rowField row campo) "N/A"

/-- One `agrupados[chave]` accumulator (part_001, lines 1044-1051). -/
structure GAcc where
  qtd : Nat
  ganhas : Nat
  perdidas : Nat
  valor_total : ℚ
  valor_ganho : ℚ
  valor_perdido : ℚ
  deriving DecidableEq, Repr

/-- The mutable state of the dispatcher loop: `rowCount` and `agrupados`
(an object in key-insertion order). -/
structure QState where
  rowCount : Nat
  agrupados : List (String × GAcc)
  deriving DecidableEq, Repr

/-- One iteration of the dispatcher's `rows.forEach` (part_001, lines
1055-1144): sanitization, invalid-reference-date skip, the `ano`,
`responsavel`, `status` and `origem` filters (each `return`ing early, i.e.
leaving the state unchanged), then `rowCount++` and accumulation under the
composite key. -/
def queryStep (filtros : Filtros) (agrupar : List String) (st : QState) (row : OppRow) : QState :=
  let rResponsavel := sanitize row.responsavel "N/A"
  let rOrigem := sanitize row.origem_lead "N/A"
  let valor := row.valor.getD 0
  let isG := oppIsGanha row
  let isP := oppIsPerdida row
  let ref := dataReferencia filtros row
  if ref == JsDateV.invalid then st
  else if (match filtros.ano with
    | some a => !(a == 0) && !(refYear ref == a)
    | none => false) then st
  else if (match filtros.responsavel with
    | some f => !(f == "") && !(jsIncludes (jsToLower rResponsavel) (jsToLower f))
    | none => false) then st
  else if (match filtros.status with
    | some fs =>
      !(fs == "") &&
        ((fs == "Ganha" && !isG) || (fs == "Perdida" && !isP) ||
          (fs == "Em aberto" && (isG || isP)))
    | none => false) then st
  else if (match filtros.origem with
    | some f => !(f == "") && !(jsIncludes (jsToLower rOrigem) (jsToLower f))
    | none => false) then st
  else
    let chave := joinSep " | " (agrupar.map (projField filtros row))
    let bump : GAcc → GAcc := fun a =>
      let a1 := { a with qtd := a.qtd + 1, valor_total := a.valor_total + valor }
      if isG then { a1 with ganhas := a1.ganhas + 1, valor_ganho := a1.valor_ganho + valor }
      else if isP then { a1 with perdidas := a1.perdidas + 1, valor_perdido := a1.valor_perdido + valor }
      else a1
    { rowCount := st.rowCount + 1
      agrupados :=
        updateAssocWith st.agrupados chave
          { qtd := 0, ganhas := 0, perdidas := 0
            valor_total := 0, valor_ganho := 0, valor_perdido := 0 } bump }

/-- One row of the table returned to the model (part_001, lines 1147-1156).
`receita`/`receita_perdida` are the exact accumulated rationals (the
source's `Number(x.toFixed(2))` cent rounding is not modelled); `conversao`
is the exact win ratio ×100 (its `toFixed(1) + '%'` rendering is not
modelled). -/
structure GroupRow where
  grupo : String
  total_leads : Nat
  vendas : Nat
  perdas : Nat
  receita : ℚ
  receita_perdida : ℚ
  conversao : ℚ
  deriving DecidableEq, Repr

/-- Formatting of one `Object.entries(agrupados)` entry into a result row. -/
def formatGroup (p : String × GAcc) : GroupRow where
  grupo := p.1
  total_leads := p.2.qtd
  vendas := p.2.ganhas
  perdas := p.2.perdidas
  receita := p.2.valor_ganho
  receita_perdida := p.2.valor_perdido
  conversao := if 0 < p.2.qtd then (p.2.ganhas * 100 : ℚ) / p.2.qtd else 0

/-- The dispatcher's comparator (part_001, lines 1161-1165) as a
"comes-no-later-than" test: descending by receita, then by
receita_perdida, then by total_leads. -/
def groupLe (a b : GroupRow) : Bool :=
  if a.receita ≠ b.receita then decide (b.receita < a.receita)
  else if a.receita_perdida ≠ b.receita_perdida then decide (b.receita_perdida < a.receita_perdida)
  else decide (b.total_leads ≤ a.total_leads)

/-- Insert an element into a list sorted by `le`. -/
def insertLe {α : Type} (le : α → α → Bool) (x : α) : List α → List α
  | [] => [x]
  | y :: t => if le x y then x :: y :: t else y :: insertLe le x t

/-- Comparator-based sort (insertion sort).  `Array.prototype.sort` is
specified only up to the comparator-induced order, which this realizes. -/
def sortLe {α : Type} (le : α → α → Bool) : List α → List α
  | [] => []
  | x :: t => insertLe le x (sortLe le t)

/-- Embedding of the dispatcher's aggregation and response formatting
(part_001, lines 1053-1166): fold the per-row step over the dataset, map
the accumulators to result rows, sort by the comparator and
`slice(0, 50)`. -/
def analisarDadosComplexos (filtros : Filtros) (agrupar : List String) (rows : List OppRow) :
    List GroupRow :=
  let st := rows.foldl (queryStep filtros agrupar) ⟨0, []⟩
  (sortLe groupLe (st.agrupados.map formatGroup)).take 50

/-! ### Spec-side definitions used to state refinement/amended claims -/

/-- The currency-cleaning pipeline exactly as §4.2 of the specification
words it — "strip currency symbol and whitespace, remove all `.`
characters, replace `,` with `.`" — reading "replace `,` with `.`" as
replacing every comma. -/
def cleanCurrencySpec (s : String) : String :=
  ⟨(removeAllChar (removeAllWs (jsReplaceFirst s "R$" "")) '.').data.map
    (fun c => if c == ',' then '.' else c)⟩

/-- The currency parser as the specification words it: clean per
`cleanCurrencySpec`, "parse as float; non-numeric result maps to `0`". -/
def currencySpec (s : String) : JsVal :=
  if s == "" then .num 0 0
  else nanToZero (jsParseFloat (cleanCurrencySpec s))

/-- Per-alias resolution step: the first header matching the alias up to
case and trimming, provided its cell is non-empty; used to state the
amended field-resolver contract. -/
def aliasHit (row : RawRow) (k : String) : Option String :=
  match row.find? (fun p => jsTrim (jsToLower p.1) == jsTrim (jsToLower k)) with
  | some p => if p.2 == "" then none else some (jsTrim p.2)
  | none => none

/-- Whether the lower-cased input contains one of the given keywords. -/
def hasAnyKeyword (s : String) (keys : List String) : Bool :=
  keys.any (fun k => jsIncludes (jsToLower s) k)

/-- The won keywords of the part_001 status normalizer. -/
def wonKeysV2 : List String := ["ganha", "conquistado", "fechado", "vendido"]

/-- The lost keywords of the part_001 status normalizer. -/
def lostKeysV2 : List String := ["perdida", "perdido", "lost", "desqualificado"]

/-- Whether the `data_conclusao` cell makes `normalizeRow` independent of
the call time: the cell is absent, empty (both falsy, so no date is
parsed), or parses to a valid calendar date. -/
def conclusaoTimeFree (v : Option String) : Bool :=
  match v with
  | none => true
  | some s => s == "" || (parseDateCore (some s)).isSome

/-! ## Theorems -/

/-! ### Helper lemmas -/

theorem parseDate_of_core_some {now : Nat} {d : Option String} {c : CivilDate}
    (h : parseDateCore d = some c) : parseDate now d = .dateIso c := by
  unfold parseDate
  rw [h]

theorem nanToZero_ne_nan (x : JsVal) : nanToZero x ≠ .nan := by
  cases x <;> simp [nanToZero]

theorem parseCurrency_ne_nan (v : Option String) : parseCurrency v ≠ .nan := by
  unfold parseCurrency
  cases v with
  | none => simp
  | some s =>
    by_cases hs : s == "" <;> simp [hs, nanToZero_ne_nan]

/-! ### Claim C1 — determinism of the Row Normalizer -/

/-- Claim C1, counterexample.  The Row Normalizer is *not* independent of
the time of the call: a row whose creation-date cell is the sentinel
`"00/00/0000"` makes `parseDate` fall back to `new Date()`, so two calls
at distinct timestamps (here 0 and 1) produce different records. -/
theorem C1_counterexample :
    normalizeRow [("Dt.Cad", "00/00/0000")] DEFAULT_MAPPING 0 ≠
      normalizeRow [("Dt.Cad", "00/00/0000")] DEFAULT_MAPPING 1 := by decide

/-- Claim C1, amended.  `normalizeRow` is a pure function of the raw row,
the alias table and the call time; its output is moreover independent of
the call time whenever the resolved creation-date cell parses to a valid
date and the resolved completion-date cell is absent, empty, or parses to
a valid date — i.e. whenever no `new Date()` fallback fires. -/
theorem C1_theorem (row : RawRow) (mapping : Mapping) (n1 n2 : Nat)
    (h1 : (parseDateCore (findField row mapping.data_criacao)).isSome = true)
    (h2 : conclusaoTimeFree (findField row mapping.data_conclusao) = true) :
    normalizeRow row mapping n1 = normalizeRow row mapping n2 := by
  obtain ⟨c, hc⟩ := Option.isSome_iff_exists.mp h1
  have e1 : parseDate n1 (findField row mapping.data_criacao) =
      parseDate n2 (findField row mapping.data_criacao) := by
    rw [parseDate_of_core_some hc, parseDate_of_core_some hc]
  have e2 : conclusaoField n1 (findField row mapping.data_conclusao) =
      conclusaoField n2 (findField row mapping.data_conclusao) := by
    cases hv : findField row mapping.data_conclusao with
    | none => rfl
    | some s =>
      rw [hv] at h2
      unfold conclusaoTimeFree at h2
      by_cases hse : s == ""
      · simp [conclusaoField, hse]
      · simp only [hse, Bool.false_or] at h2
        obtain ⟨c2, hc2⟩ := Option.isSome_iff_exists.mp h2
        simp [conclusaoField, hse, parseDate_of_core_some hc2]
  unfold normalizeRow
  rw [e1, e2]

/-- Claim C1, witness: a row with a valid `Dt.Cad` cell and no
completion-date cell normalizes identically at times 0 and 1. -/
theorem C1_witness :
    (parseDateCore (findField [("Dt.Cad", "01/02/2024")] DEFAULT_MAPPING.data_criacao)).isSome
        = true ∧
    conclusaoTimeFree (findField [("Dt.Cad", "01/02/2024")] DEFAULT_MAPPING.data_conclusao)
        = true ∧
    normalizeRow [("Dt.Cad", "01/02/2024")] DEFAULT_MAPPING 0 =
      normalizeRow [("Dt.Cad", "01/02/2024")] DEFAULT_MAPPING 1 :=
  ⟨by decide, by decide,
    C1_theorem [("Dt.Cad", "01/02/2024")] DEFAULT_MAPPING 0 1 (by decide) (by decide)⟩

/-! ### Claim C3 — date parser fallback policy -/

theorem map_eq_self_of_count_zero (x y : Char) (l : List Char) (h : l.count x = 0) :
    l.map (fun c => if c == x then y else c) = l := by
  induction l with
  | nil => rfl
  | cons c t ih =>
    rw [List.count_cons] at h
    cases hc : c == x with
    | true =>
      rw [hc] at h
      simp at h
    | false =>
      rw [hc] at h
      simp at h
      have ht := ih h
      show (if (c == x) = true then y else c) :: List.map _ t = c :: t
      rw [ht, hc]
      simp

theorem replaceCharFirst_eq_map (y : Char) (l : List Char) (h : l.count ',' ≤ 1) :
    replaceCharFirst ',' y l = l.map (fun c => if c == ',' then y else c) := by
  induction l with
  | nil => rfl
  | cons c t ih =>
    rw [List.count_cons] at h
    cases hc : c == ',' with
    | true =>
      have hce : c = ',' := eq_of_beq hc
      subst hce
      simp at h
      show (if (',' == ',') = true then y :: t else ',' :: replaceCharFirst ',' y t) =
        List.map _ (',' :: t)
      rw [List.map_cons, map_eq_self_of_count_zero ',' y t h]
      simp
    | false =>
      rw [hc] at h
      simp at h
      have ht := ih h
      show (if (c == ',') = true then y :: t else c :: replaceCharFirst ',' y t) =
        List.map _ (c :: t)
      rw [List.map_cons, ht, hc]
      simp

theorem count_filter_le_chars (p : Char → Bool) (a : Char) (l : List Char) :
    (l.filter p).count a ≤ l.count a :=
  (List.filter_sublist l).count_le a

theorem count_replaceFirstChars_erase_le (pat : List Char) (a : Char) (l : List Char) :
    (replaceFirstChars pat [] l).count a ≤ l.count a := by
  induction l with
  | nil => simp [replaceFirstChars]
  | cons c t ih =>
    simp only [replaceFirstChars]
    split
    · simpa using ((c :: t).drop_sublist pat.length).count_le a
    · simp only [List.count_cons]
      omega

theorem count_cleanCurrency_comma_le (s : String) :
    ((removeAllChar (removeAllWs (jsReplaceFirst s "R$" "")) '.').data).count ',' ≤
      s.data.count ',' := by
  unfold removeAllChar removeAllWs jsReplaceFirst
  calc ((((replaceFirstChars "R$".data [] s.data).filter
            (fun c => !(jsIsWs c))).filter (fun c => !(c == '.')))).count ','
      ≤ ((replaceFirstChars "R$".data [] s.data).filter (fun c => !(jsIsWs c))).count ',' :=
        count_filter_le_chars _ ',' _
    _ ≤ (replaceFirstChars "R$".data [] s.data).count ',' := count_filter_le_chars _ ',' _
    _ ≤ s.data.count ',' := count_replaceFirstChars_erase_le _ ',' _

/-- Claim C4.  The currency parser (1) maps the specification's scenario
`"R$ 1.234,56"` to exactly 1234.56, (2) never yields `NaN` — any
non-numeric cleaning result maps to `0` and no input throws — and (3)
coincides with the cleaning algorithm exactly as the specification words
it (symbol strip, whitespace strip, remove all dots, comma to dot,
`parseFloat`, `NaN` to `0`) on every input with at most one comma — i.e.
on every string in the Latin-American format the parser targets.  (On
inputs with several commas the source replaces only the first one, but
`parseFloat` stops at the second comma either way.) -/
theorem C4_theorem :
    (parseCurrency (some "R$ 1.234,56")).toRat = some (1234.56 : ℚ) ∧
    (∀ v : Option String, parseCurrency v ≠ .nan) ∧
    (∀ s : String, countChar s ',' ≤ 1 → parseCurrency (some s) = currencySpec s) := by
  refine ⟨?_, parseCurrency_ne_nan, fun s h => ?_⟩
  · have h1 : parseCurrency (some "R$ 1.234,56") = .num 123456 (-2) := by decide
    rw [h1]
    simp only [JsVal.toRat, Option.some.injEq]
    norm_num
  · have hcount : ((removeAllChar (removeAllWs (jsReplaceFirst s "R$" "")) '.').data).count ','
        ≤ 1 := le_trans (count_cleanCurrency_comma_le s) h
    have hclean : cleanCurrency s = cleanCurrencySpec s := by
      unfold cleanCurrency cleanCurrencySpec jsReplaceCharFirst
      exact congrArg String.mk (replaceCharFirst_eq_map '.' _ hcount)
    have hred : parseCurrency (some s) =
        (if s == "" then JsVal.num 0 0 else nanToZero (jsParseFloat (cleanCurrency s))) := rfl
    rw [hred, hclean]
    rfl

/-- Claim C4, witness: the scenario string has a single comma, so the
code/specification coincidence applies to it. -/
theorem C4_witness :
    countChar "R$ 1.234,56" ',' ≤ 1 ∧
      parseCurrency (some "R$ 1.234,56") = currencySpec "R$ 1.234,56" :=
  ⟨by decide, C4_theorem.2.2 "R$ 1.234,56" (by decide)⟩

/-! ### Claim C5 — the normalized amount -/

/-- Claim C5, counterexample.  The normalized `valor` is *not* always
non-negative, and not always finite: a `Valor` cell `"-5"` normalizes to
the negative amount −5, and a cell `"Infinity"` normalizes to Infinity
(`parseFloat` accepts both; neither is `NaN`, so the 0 fallback does not
fire). -/
theorem C5_counterexample :
    (normalizeRow [("Valor", "-5")] DEFAULT_MAPPING 0).valor = JsVal.num (-5) 0 ∧
    JsVal.toRat (JsVal.num (-5) 0) = some (-5 : ℚ) ∧ (-5 : ℚ) < 0 ∧
    (normalizeRow [("Valor", "Infinity")] DEFAULT_MAPPING 0).valor = JsVal.inf := by
  refine ⟨by decide, ?_, by norm_num, by decide⟩
  simp only [JsVal.toRat, Option.some.injEq]
  norm_num

/-- Claim C5, amended.  The normalized amount is never `NaN` and never
null: an absent `valor` cell yields `0` (second conjunct), and so does a
non-numeric cell — one whose cleaned text `parseFloat` cannot read (third
conjunct; the empty-string cell is covered there too since the falsy
branch also returns `0`).  It can however be negative or infinite when the
cell itself encodes a negative or infinite number (the part_001 revision
later drops rows with negative amounts via its `validRows` filter before
persisting). -/
theorem C5_theorem (row : RawRow) (mapping : Mapping) (now : Nat) :
    (normalizeRow row mapping now).valor ≠ JsVal.nan ∧
      (findField row mapping.valor = none →
        (normalizeRow row mapping now).valor = JsVal.num 0 0) ∧
      (∀ s : String, findField row mapping.valor = some s →
        jsParseFloat (cleanCurrency s) = JsVal.nan →
        (normalizeRow row mapping now).valor = JsVal.num 0 0) := by
  refine ⟨parseCurrency_ne_nan (findField row mapping.valor), fun h => ?_, fun s hs hnan => ?_⟩
  · show parseCurrency (findField row mapping.valor) = JsVal.num 0 0
    rw [h]
    rfl
  · show parseCurrency (findField row mapping.valor) = JsVal.num 0 0
    rw [hs]
    have hred : parseCurrency (some s) =
        (if s == "" then JsVal.num 0 0 else nanToZero (jsParseFloat (cleanCurrency s))) := rfl
    rw [hred]
    by_cases hse : s == ""
    · rw [if_pos hse]
    · rw [if_neg hse, hnan]
      rfl

/-- Claim C5, witness: a row with no `valor` cell gets amount `0`, and so
does a row whose `valor` cell is the non-numeric `"abc"`. -/
theorem C5_witness :
    findField [("Cliente", "Maria")] DEFAULT_MAPPING.valor = none ∧
      (normalizeRow [("Cliente", "Maria")] DEFAULT_MAPPING 0).valor = JsVal.num 0 0 ∧
      findField [("Valor", "abc")] DEFAULT_MAPPING.valor = some "abc" ∧
      jsParseFloat (cleanCurrency "abc") = JsVal.nan ∧
      (normalizeRow [("Valor", "abc")] DEFAULT_MAPPING 0).valor = JsVal.num 0 0 :=
  ⟨by decide, (C5_theorem [("Cliente", "Maria")] DEFAULT_MAPPING 0).2.1 (by decide),
    by decide, by decide,
    (C5_theorem [("Valor", "abc")] DEFAULT_MAPPING 0).2.2 "abc" (by decide) (by decide)⟩

/-! ### Claim C6 — the status normalizer keyword sets -/

/-- Claim C6, counterexample.  In the src/backend/src/index.ts revision the
Won set is only ganha/conquistado/fechado and the Lost set only
perdida/perdido/lost: the claimed keywords "vendido" and "desqualificado"
are not recognized there and map to Open, while the part_001 revision maps
them to Won resp. Lost as claimed. -/
theorem C6_counterexample :
    normalizeStatus (some "vendido") = "Em aberto" ∧
    normalizeStatus (some "desqualificado") = "Em aberto" ∧
    "Em aberto" ≠ "Ganha" ∧
    normalizeStatusV2 (some "vendido") = "Ganha" ∧
    normalizeStatusV2 (some "desqualificado") = "Perdida" := by decide

theorem hasAnyKeyword_won_eq (s : String) :
    hasAnyKeyword s wonKeysV2 =
      (jsIncludes (jsToLower s) "ganha" || jsIncludes (jsToLower s) "conquistado" ||
        jsIncludes (jsToLower s) "fechado" || jsIncludes (jsToLower s) "vendido") := by
  simp [hasAnyKeyword, wonKeysV2, Bool.or_assoc]

theorem hasAnyKeyword_lost_eq (s : String) :
    hasAnyKeyword s lostKeysV2 =
      (jsIncludes (jsToLower s) "perdida" || jsIncludes (jsToLower s) "perdido" ||
        jsIncludes (jsToLower s) "lost" || jsIncludes (jsToLower s) "desqualificado") := by
  simp [hasAnyKeyword, lostKeysV2, Bool.or_assoc]

/-- Claim C6, amended.  The part_001 status normalizer behaves exactly as
the claim states: lower-case, then Won on any of
ganha/conquistado/fechado/vendido, else Lost on any of
perdida/perdido/lost/desqualificado (Won checked first, so a string
matching both is Won), anything else — including absent input — Open.
The index.ts revision omits "vendido"/"desqualificado" (see the
counterexample) but is otherwise identical. -/
theorem C6_theorem :
    (∀ s : String,
      (hasAnyKeyword s wonKeysV2 = true → normalizeStatusV2 (some s) = "Ganha") ∧
      (hasAnyKeyword s wonKeysV2 = false → hasAnyKeyword s lostKeysV2 = true →
        normalizeStatusV2 (some s) = "Perdida") ∧
      (hasAnyKeyword s wonKeysV2 = false → hasAnyKeyword s lostKeysV2 = false →
        normalizeStatusV2 (some s) = "Em aberto")) ∧
    normalizeStatusV2 none = "Em aberto" := by
  refine ⟨fun s => ?_, rfl⟩
  rw [hasAnyKeyword_won_eq, hasAnyKeyword_lost_eq]
  by_cases hse : s == ""
  · have hs0 : s = "" := eq_of_beq hse
    subst hs0
    refine ⟨fun hw => ?_, fun _ _ => ?_, fun _ _ => ?_⟩
    · exact absurd hw (by decide)
    · exact absurd ‹_› (by decide)
    · rfl
  · refine ⟨fun hw => ?_, fun hw hl => ?_, fun hw hl => ?_⟩ <;>
      simp only [normalizeStatusV2, hse] <;>
      simp only [Bool.false_eq_true, if_false] <;>
      rw [hw] <;>
      try rw [hl]
    · rfl
    · rfl
    · rfl

/-- Claim C6, witness: the specification's scenario
`"Negócio Conquistado"` contains a Won keyword and normalizes to Won in
the part_001 revision. -/
theorem C6_witness :
    hasAnyKeyword "Negócio Conquistado" wonKeysV2 = true ∧
      normalizeStatusV2 (some "Negócio Conquistado") = "Ganha" :=
  ⟨by decide, (C6_theorem.1 "Negócio Conquistado").1 (by decide)⟩

/-! ### Claim C7 — the Field Resolver -/

/-- Claim C7, counterexample.  A cell that is whitespace-only (non-empty
before trimming, empty after) is *not* treated as absent: the resolver
returns the trimmed empty string for the first alias instead of
continuing to `"Vendedor"` and returning `"Alice"`. -/
theorem C7_counterexample :
    findField [("Responsável", " "), ("Vendedor", "Alice")] DEFAULT_MAPPING.responsavel
        = some "" ∧
      (some "" : Option String) ≠ some "Alice" := by decide

/-- Claim C7, amended.  The resolver walks the alias list in table order
and returns the first hit, where a hit for alias `k` is the trimmed cell
of the first header matching `k` case-insensitively and trimmed, provided
that cell is non-empty *before* trimming; an empty cell makes the search
continue with the next alias, and with no hit the result is null.  (A
whitespace-only cell is a hit whose trimmed value is the empty string —
see the counterexample.) -/
theorem C7_theorem (row : RawRow) (keys : List String) :
    findField row keys = ((keys.map (aliasHit row)).filterMap id).head? := by
  induction keys with
  | nil => rfl
  | cons k ks ih =>
    simp only [List.map_cons, List.filterMap_cons]
    cases hfind : row.find? (fun p => jsTrim (jsToLower p.1) == jsTrim (jsToLower k)) with
    | none => simp [findField, aliasHit, hfind, ih]
    | some p =>
      by_cases hp : p.2 == "" <;> simp [findField, aliasHit, hfind, hp, ih]

/-! ### Claim C2 — last-write-wins in-batch dedup -/

theorem beq_false_ne {a b : String} (h : (a == b) = false) : a ≠ b := by
  intro he
  rw [he] at h
  simp at h

theorem ne_beq_false {a b : String} (h : ¬ a = b) : (a == b) = false := by
  cases hb : a == b
  · rfl
  · exact absurd (eq_of_beq hb) h

theorem keys_upsertAssoc {α : Type} (m : List (String × α)) (k : String) (r : α) :
    (upsertAssoc m k r).map Prod.fst =
      if k ∈ m.map Prod.fst then m.map Prod.fst else m.map Prod.fst ++ [k] := by
  induction m with
  | nil => simp [upsertAssoc]
  | cons p t ih =>
    obtain ⟨k1, v⟩ := p
    simp only [upsertAssoc]
    by_cases hk : k1 == k
    · have : k1 = k := eq_of_beq hk
      subst this
      simp [hk]
    · have hkf : (k1 == k) = false := by cases hb : k1 == k; rfl; exact absurd hb hk
      have hne2 : ¬ k = k1 := fun he => beq_false_ne hkf he.symm
      rw [if_neg hk]
      simp only [List.map_cons, ih]
      by_cases hmem : k ∈ t.map Prod.fst
      · simp [hmem, hne2]
      · simp [hmem, hne2]

theorem upsertAssoc_nodup {α : Type} (m : List (String × α)) (k : String) (r : α)
    (h : (m.map Prod.fst).Nodup) : ((upsertAssoc m k r).map Prod.fst).Nodup := by
  rw [keys_upsertAssoc]
  by_cases hmem : k ∈ m.map Prod.fst
  · rw [if_pos hmem]
    exact h
  · rw [if_neg hmem]
    simp [List.nodup_append, h, hmem]

theorem upsertAssoc_hash_inv {α : Type} (hashOf : α → String) (m : List (String × α))
    (k : String) (r : α) (hinv : ∀ p ∈ m, hashOf p.2 = p.1) (hk : hashOf r = k) :
    ∀ p ∈ upsertAssoc m k r, hashOf p.2 = p.1 := by
  induction m with
  | nil =>
    intro p hp
    simp only [upsertAssoc, List.mem_singleton] at hp
    subst hp
    exact hk
  | cons q t ih =>
    obtain ⟨k1, v⟩ := q
    intro p hp
    simp only [upsertAssoc] at hp
    by_cases hbe : k1 == k
    · rw [if_pos hbe] at hp
      rcases List.mem_cons.mp hp with h1 | h2
      · subst h1
        rw [hk]
        exact (eq_of_beq hbe).symm
      · exact hinv p (List.mem_cons_of_mem _ h2)
    · rw [if_neg hbe] at hp
      rcases List.mem_cons.mp hp with h1 | h2
      · subst h1
        exact hinv (k1, v) (List.mem_cons_self _ _)
      · exact ih (fun q hq => hinv q (List.mem_cons_of_mem _ hq)) p h2

theorem filter_upsertAssoc_ne {α : Type} (m : List (String × α)) (k h : String) (r : α)
    (hne : ¬ k = h) :
    (upsertAssoc m k r).filter (fun p => p.1 == h) = m.filter (fun p => p.1 == h) := by
  induction m with
  | nil => simp [upsertAssoc, ne_beq_false hne]
  | cons q t ih =>
    obtain ⟨k1, v⟩ := q
    simp only [upsertAssoc]
    by_cases hbe : k1 == k
    · have hk1 : k1 = k := eq_of_beq hbe
      subst hk1
      simp [hbe, ne_beq_false hne]
    · simp only [if_neg hbe]
      by_cases hb : k1 == h <;> simp [hb, ih]

theorem filter_eq_nil_of_not_mem_keys {α : Type} (m : List (String × α)) (h : String)
    (hni : h ∉ m.map Prod.fst) : m.filter (fun p => p.1 == h) = [] := by
  induction m with
  | nil => rfl
  | cons q t ih =>
    obtain ⟨k1, v⟩ := q
    simp only [List.map_cons, List.mem_cons] at hni
    push_neg at hni
    have hf : (k1 == h) = false := ne_beq_false (fun he => hni.1 he.symm)
    simp [hf, ih hni.2]

theorem filter_upsertAssoc_eq {α : Type} (m : List (String × α)) (h : String) (r : α)
    (hnd : (m.map Prod.fst).Nodup) :
    (upsertAssoc m h r).filter (fun p => p.1 == h) = [(h, r)] := by
  induction m with
  | nil => simp [upsertAssoc]
  | cons q t ih =>
    obtain ⟨k1, v⟩ := q
    simp only [List.map_cons, List.nodup_cons] at hnd
    simp only [upsertAssoc]
    by_cases hbe : k1 == h
    · have hk1 : k1 = h := eq_of_beq hbe
      subst hk1
      have ht : t.filter (fun p => p.1 == k1) = [] :=
        filter_eq_nil_of_not_mem_keys t k1 hnd.1
      simp [hbe, ht]
    · simp only [if_neg hbe]
      rw [List.filter_cons]
      simp only [hbe, Bool.false_eq_true, if_false]
      exact ih hnd.2

theorem getLast?_cons_elim {α : Type} (a : α) (l : List α) :
    (a :: l).getLast? = match l.getLast? with
      | some x => some x
      | none => some a := by
  cases l with
  | nil => rfl
  | cons b t => rw [List.getLast?_cons_cons]; cases hbt : (b :: t).getLast? with
    | none => simp at hbt
    | some x => rfl

theorem foldl_upsert_filter {α : Type} (hashOf : α → String) (h : String) (rows : List α) :
    ∀ m : List (String × α), (∀ p ∈ m, hashOf p.2 = p.1) → (m.map Prod.fst).Nodup →
      ((rows.foldl (fun acc r => upsertAssoc acc (hashOf r) r) m).filter
          (fun p => p.1 == h)).map Prod.snd =
        match (rows.filter (fun r => hashOf r == h)).getLast? with
        | some r => [r]
        | none => (m.filter (fun p => p.1 == h)).map Prod.snd := by
  induction rows with
  | nil => intro m _ _; rfl
  | cons r rs ih =>
    intro m hinv hnd
    have hinv2 := upsertAssoc_hash_inv hashOf m (hashOf r) r hinv rfl
    have hnd2 := upsertAssoc_nodup m (hashOf r) r hnd
    simp only [List.foldl_cons, List.filter_cons]
    rw [ih (upsertAssoc m (hashOf r) r) hinv2 hnd2]
    by_cases hr : hashOf r == h
    · have hre : hashOf r = h := eq_of_beq hr
      simp only [hr, if_true]
      rw [getLast?_cons_elim]
      cases hlast : (rs.filter (fun x => hashOf x == h)).getLast? with
      | some x => rfl
      | none =>
        have : (upsertAssoc m (hashOf r) r).filter (fun p => p.1 == h) = [(h, r)] := by
          rw [hre]
          exact filter_upsertAssoc_eq m h r hnd
        rw [this]
        rfl
    · have hrf : (hashOf r == h) = false := by cases hb : hashOf r == h; rfl; exact absurd hb hr
      have hne : ¬ hashOf r = h := beq_false_ne hrf
      simp only [hrf, Bool.false_eq_true, if_false]
      rw [filter_upsertAssoc_ne m (hashOf r) h r hne]

theorem filter_map_snd {α : Type} (m : List (String × α)) (hashOf : α → String) (h : String)
    (hinv : ∀ p ∈ m, hashOf p.2 = p.1) :
    (m.map Prod.snd).filter (fun r => hashOf r == h) =
      (m.filter (fun p => p.1 == h)).map Prod.snd := by
  induction m with
  | nil => rfl
  | cons q t ih =>
    have hq : hashOf q.2 = q.1 := hinv q (List.mem_cons_self _ _)
    have ht := ih (fun p hp => hinv p (List.mem_cons_of_mem _ hp))
    simp only [List.map_cons, List.filter_cons, hq]
    by_cases hb : q.1 == h
    · simp [hb, ht]
    · simp [hb, ht]

/-- Claim C2.  In-batch dedup is last-write-wins: in the list sent to the
store, the rows carrying fingerprint `h` are exactly the last row of the
batch with that fingerprint (in file order) — one survivor per occurring
fingerprint, none for a fingerprint that does not occur, so rows with
distinct fingerprints are all preserved. -/
theorem foldl_upsert_hash_inv {α : Type} (hashOf : α → String) (rows : List α) :
    ∀ m : List (String × α), (∀ p ∈ m, hashOf p.2 = p.1) →
      ∀ p ∈ rows.foldl (fun acc r => upsertAssoc acc (hashOf r) r) m, hashOf p.2 = p.1 := by
  induction rows with
  | nil => intro m hm; exact hm
  | cons r rs ih =>
    intro m hm
    exact ih _ (upsertAssoc_hash_inv hashOf m (hashOf r) r hm rfl)

/-- Claim C2.  In-batch dedup is last-write-wins: in the list sent to the
store, the rows carrying fingerprint `h` are exactly the last row of the
batch with that fingerprint (in file order) — one survivor per occurring
fingerprint, none for a fingerprint that does not occur, so rows with
distinct fingerprints are all preserved. -/
theorem C2_theorem {α : Type} (hashOf : α → String) (rows : List α) (h : String) :
    (dedupBatch hashOf rows).filter (fun r => hashOf r == h) =
      ((rows.filter (fun r => hashOf r == h)).getLast?).toList := by
  unfold dedupBatch
  rw [filter_map_snd _ hashOf h (foldl_upsert_hash_inv hashOf rows [] (by simp))]
  rw [foldl_upsert_filter hashOf h rows [] (by simp) (by simp)]
  cases (rows.filter (fun r => hashOf r == h)).getLast? <;> rfl

/-! ### Claim C8 — aggregation conserves totals -/

theorem vendBump_total (isG isP : Bool) (valor : ℚ) (b : VendBucket) :
    (vendBump isG isP valor b).total = b.total + 1 := by
  cases isG <;> cases isP <;> simp [vendBump]

theorem vendBump_ganhas (isG isP : Bool) (valor : ℚ) (b : VendBucket) :
    (vendBump isG isP valor b).ganhas = b.ganhas + (if isG then 1 else 0) := by
  cases isG <;> cases isP <;> simp [vendBump]

theorem sumTotals_updateAssocWith (m : List (String × VendBucket)) (k : String)
    (init : VendBucket) (f : VendBucket → VendBucket)
    (hf : ∀ b, (f b).total = b.total + 1) (hinit : init.total = 0) :
    sumTotals (updateAssocWith m k init f) = sumTotals m + 1 := by
  induction m with
  | nil => simp [updateAssocWith, sumTotals, hf, hinit]
  | cons q t ih =>
    obtain ⟨k1, v⟩ := q
    simp only [updateAssocWith]
    by_cases hb : k1 == k
    · simp [hb, sumTotals, hf]
      omega
    · simp only [hb, Bool.false_eq_true, if_false]
      simp only [sumTotals, List.map_cons, List.sum_cons] at ih ⊢
      omega

theorem sumGanhas_updateAssocWith (m : List (String × VendBucket)) (k : String)
    (init : VendBucket) (f : VendBucket → VendBucket) (d : Nat)
    (hf : ∀ b, (f b).ganhas = b.ganhas + d) (hinit : init.ganhas = 0) :
    sumGanhas (updateAssocWith m k init f) = sumGanhas m + d := by
  induction m with
  | nil => simp [updateAssocWith, sumGanhas, hf, hinit]
  | cons q t ih =>
    obtain ⟨k1, v⟩ := q
    simp only [updateAssocWith]
    by_cases hb : k1 == k
    · simp [hb, sumGanhas, hf]
      omega
    · simp only [hb, Bool.false_eq_true, if_false]
      simp only [sumGanhas, List.map_cons, List.sum_cons] at ih ⊢
      omega

theorem profileStep_sumTotals (st : ProfileState) (row : DbRow) :
    sumTotals (profileStep st row).porVendedor = sumTotals st.porVendedor + 1 :=
  sumTotals_updateAssocWith _ _ _ _ (vendBump_total _ _ _) rfl

theorem profileStep_sumGanhas (st : ProfileState) (row : DbRow) :
    sumGanhas (profileStep st row).porVendedor =
      sumGanhas st.porVendedor + (if dbRowIsGanha row then 1 else 0) :=
  sumGanhas_updateAssocWith _ _ _ _ _ (vendBump_ganhas _ _ _) rfl

theorem profileStep_qtdGanhas (st : ProfileState) (row : DbRow) :
    (profileStep st row).qtdGanhas = st.qtdGanhas + (if dbRowIsGanha row then 1 else 0) := by
  cases hg : dbRowIsGanha row <;> simp [profileStep, hg]

theorem profile_fold_sums (rows : List DbRow) :
    ∀ st : ProfileState,
      sumTotals (rows.foldl profileStep st).porVendedor =
          sumTotals st.porVendedor + rows.length ∧
      sumGanhas (rows.foldl profileStep st).porVendedor =
          sumGanhas st.porVendedor + (rows.filter (fun r => dbRowIsGanha r)).length ∧
      (rows.foldl profileStep st).qtdGanhas =
          st.qtdGanhas + (rows.filter (fun r => dbRowIsGanha r)).length := by
  induction rows with
  | nil => simp
  | cons r rs ih =>
    intro st
    obtain ⟨h1, h2, h3⟩ := ih (profileStep st r)
    simp only [List.foldl_cons, List.filter_cons, List.length_cons]
    refine ⟨?_, ?_, ?_⟩
    · rw [h1, profileStep_sumTotals]
      omega
    · rw [h2, profileStep_sumGanhas]
      cases hg : dbRowIsGanha r
      · simp [hg]
      · simp [hg]
        omega
    · rw [h3, profileStep_qtdGanhas]
      cases hg : dbRowIsGanha r
      · simp [hg]
      · simp [hg]
        omega

/-- Claim C8.  Aggregation conserves totals: whenever the profile builder
returns a profile, the per-seller bucket `total`s sum to the overall count
reported in `resumo.total_analisado`, and the per-seller `ganhas` counts
sum to the overall `resumo.ganhas`. -/
theorem C8_theorem (rows : List DbRow) (p : Profile)
    (h : generateAnalyticalProfile rows = some p) :
    sumTotals p.porVendedor = p.resumo.total_analisado ∧
      sumGanhas p.porVendedor = p.resumo.ganhas := by
  unfold generateAnalyticalProfile at h
  by_cases he : rows.isEmpty
  · rw [if_pos he] at h
    exact absurd h (by simp)
  · rw [if_neg he] at h
    have hp := Option.some.inj h
    subst hp
    obtain ⟨h1, h2, h3⟩ := profile_fold_sums rows ⟨0, 0, 0, 0, []⟩
    have h1' : sumTotals (rows.foldl profileStep ⟨0, 0, 0, 0, []⟩).porVendedor
        = rows.length := by simpa [sumTotals] using h1
    have h2' : sumGanhas (rows.foldl profileStep ⟨0, 0, 0, 0, []⟩).porVendedor
        = (rows.filter (fun r => dbRowIsGanha r)).length := by simpa [sumGanhas] using h2
    have h3' : (rows.foldl profileStep ⟨0, 0, 0, 0, []⟩).qtdGanhas
        = (rows.filter (fun r => dbRowIsGanha r)).length := by simpa using h3
    exact ⟨h1', h2'.trans h3'.symm⟩

/-- Claim C8, witness: a concrete two-row dataset (one open, one lost). -/
theorem C8_witness :
    ∃ p, generateAnalyticalProfile
        [{ responsavel := some "Ana", status := some "Em aberto", valor := none },
         { responsavel := some "Bia", status := some "Perdida", valor := none }] = some p ∧
      sumTotals p.porVendedor = p.resumo.total_analisado ∧
      sumGanhas p.porVendedor = p.resumo.ganhas :=
  ⟨_, rfl,
    C8_theorem
      [{ responsavel := some "Ana", status := some "Em aberto", valor := none },
       { responsavel := some "Bia", status := some "Perdida", valor := none }] _ (by rfl)⟩

/-! ### Claim C9 — the dispatcher's group cap -/

/-- Claim C9.  The Query Tool Dispatcher returns at most 50 groups for
every dataset, filter set and group-by dimension list: its response is
`slice(0, 50)` of the sorted table (the earlier dispatcher revision in
part_001 slices at 40; both are within the documented 40–50 cap). -/
theorem C9_theorem (filtros : Filtros) (agrupar : List String) (rows : List OppRow) :
    (analisarDadosComplexos filtros agrupar rows).length ≤ 50 := by
  unfold analisarDadosComplexos
  simp only [List.length_take]
  exact Nat.min_le_left _ _

/-! ### Claim C10 — invalid reference dates are silently excluded -/

/-- Claim C10.  A stored row whose resolved reference date is an invalid
`Date` is excluded from the dispatcher's aggregation before any filter is
consulted: the per-row step leaves the whole state (the `rowCount` counter
and every accumulator) unchanged, and consequently deleting such a row
from the dataset — wherever it sits — does not change the dispatcher's
result. -/
theorem C10_theorem (filtros : Filtros) (agrupar : List String) (row : OppRow)
    (h : dataReferencia filtros row = .invalid) :
    (∀ st : QState, queryStep filtros agrupar st row = st) ∧
    (∀ xs ys : List OppRow,
      analisarDadosComplexos filtros agrupar (xs ++ row :: ys) =
        analisarDadosComplexos filtros agrupar (xs ++ ys)) := by
  have hstep : ∀ st : QState, queryStep filtros agrupar st row = st := by
    intro st
    simp [queryStep, h]
  refine ⟨hstep, fun xs ys => ?_⟩
  simp only [analisarDadosComplexos, List.foldl_append, List.foldl_cons, hstep]

/-- Claim C10, witness: a row stored with an unparsable creation date and
no completion date is dropped even with every filter absent. -/
theorem C10_witness :
    dataReferencia ⟨none, none, none, none⟩
        { responsavel := none, origem_lead := none, funil := none, status := none,
          motivo_perda := none, produto := none, estado := none, cidade := none,
          nome_cliente := none, etapa := none, valor := none,
          data_criacao := JsDateV.invalid, data_conclusao := none } = .invalid ∧
    queryStep ⟨none, none, none, none⟩ ["mes"] ⟨0, []⟩
        { responsavel := none, origem_lead := none, funil := none, status := none,
          motivo_perda := none, produto := none, estado := none, cidade := none,
          nome_cliente := none, etapa := none, valor := none,
          data_criacao := JsDateV.invalid, data_conclusao := none } = ⟨0, []⟩ ∧
    analisarDadosComplexos ⟨none, none, none, none⟩ ["mes"]
        [{ responsavel := none, origem_lead := none, funil := none, status := none,
           motivo_perda := none, produto := none, estado := none, cidade := none,
           nome_cliente := none, etapa := none, valor := none,
           data_criacao := JsDateV.invalid, data_conclusao := none }] =
      analisarDadosComplexos ⟨none, none, none, none⟩ ["mes"] [] := by
  refine ⟨by decide, ?_, ?_⟩
  · exact (C10_theorem ⟨none, none, none, none⟩ ["mes"] _ (by decide)).1 ⟨0, []⟩
  · exact (C10_theorem ⟨none, none, none, none⟩ ["mes"] _ (by decide)).2 [] []

end SimploBI
